import Mathlib

/-!
A shallow embedding of the SQLite-backed data layer of the db6 tracker
(src/db.py): the five-table schema registry, column inspection, the
additive and rebuild migrations of ensure_table_columns and
migrate_table_schema, and the record-store operations add_record,
get_table_data and delete_record.  A SQLite value is modelled by `Val`,
a table by its ordered column list together with its rows, and the
database file by an association list of named tables.  Fallible SQL
statements return `Except`.
-/

deriving instance DecidableEq for Except

namespace Db6

/-- A SQLite storage value: NULL, an integer, or a text value. -/
inductive Val where
  | null : Val
  | int : Int → Val
  | str : String → Val
deriving DecidableEq

/-- A table: ordered column names, and rows aligned with `cols`. -/
structure Table where
  cols : List String
  rows : List (List Val)
deriving DecidableEq

/-- The database file: an association list of named tables. -/
abbrev DB := List (String × Table)

/-- Index of a column name in a column list (first occurrence). -/
def idxOfCol : List String → String → Option Nat
  | [], _ => none
  | c :: cs, x => if c == x then some 0 else (idxOfCol cs x).map (· + 1)

/-- Value of row `r` at the column named `c` of table `t` (NULL if the
column is absent or the row is short). -/
def valueAt (t : Table) (r : List Val) (c : String) : Val :=
  match idxOfCol t.cols c with
  | some i => r.getD i Val.null
  | none => Val.null

def lookupTable : DB → String → Option Table
  | [], _ => none
  | p :: rest, n => if p.1 == n then some p.2 else lookupTable rest n

def tableExists (db : DB) (n : String) : Bool :=
  (lookupTable db n).isSome

/-- Replace every table stored under name `n` by `f` of it (SQLite keeps
table names unique, so at most one entry is touched). -/
def updateTable : DB → String → (Table → Table) → DB
  | [], _, _ => []
  | p :: rest, n, f => (if p.1 == n then (p.1, f p.2) else p) :: updateTable rest n f

/-- Rename every entry keyed `oldName` to `newName`. -/
def renameEntries : DB → String → String → DB
  | [], _, _ => []
  | p :: rest, oldName, newName =>
    (if p.1 == oldName then (newName, p.2) else p) :: renameEntries rest oldName newName

/-- Remove every entry keyed `n`. -/
def dropEntries : DB → String → DB
  | [], _ => []
  | p :: rest, n => if p.1 == n then dropEntries rest n else p :: dropEntries rest n

/-- Python get_table_columns: the column-name set of a table as reported
by PRAGMA table_info (empty for a missing table).  The Python code holds
it as a set; we keep the deterministic order of the column list. -/
def get_table_columns (db : DB) (n : String) : List String :=
  match lookupTable db n with
  | some t => t.cols
  | none => []

/-- The hard-coded expected schema of ensure_table_columns:
table name paired with its ordered list of (column name, declared type). -/
def expected_schema : List (String × List (String × String)) :=
  [ ("builds",
      [("name", "TEXT"), ("manifest_id", "TEXT"), ("year", "INTEGER"),
       ("season", "TEXT"), ("crack_type", "TEXT"), ("link", "TEXT"),
       ("md5", "TEXT"), ("description", "TEXT")]),
    ("tools",
      [("name", "TEXT"), ("version", "TEXT"), ("link", "TEXT"),
       ("description", "TEXT")]),
    ("cheats",
      [("name", "TEXT"), ("type", "TEXT"), ("link", "TEXT"),
       ("description", "TEXT")]),
    ("downloaders",
      [("name", "TEXT"), ("link", "TEXT"), ("description", "TEXT")]),
    ("preserved",
      [("name", "TEXT"), ("link", "TEXT"), ("description", "TEXT")]) ]

def lookupSchema (n : String) : Option (List (String × String)) :=
  (expected_schema.find? (fun p => p.1 == n)).map Prod.snd

/-- Python set equality between two column collections. -/
def sameSet (a b : List String) : Bool :=
  a.all (fun x => b.contains x) && b.all (fun x => a.contains x)

/-- ALTER TABLE t ADD COLUMN c: the column is appended and every
existing row gets NULL there (the code omits NOT NULL when adding). -/
def addColumn (t : Table) (c : String) : Table :=
  { cols := t.cols ++ [c], rows := t.rows.map (fun r => r ++ [Val.null]) }

/-- The additive loop of ensure_table_columns: add every schema column
that is not in the `existing` set captured before the loop. -/
def addMissing (t : Table) (existing : List String) (schema : List (String × String)) : Table :=
  schema.foldl (fun acc ct => if existing.contains ct.1 then acc else addColumn acc ct.1) t

/-- The normalize helper of migrate_table_schema: keep alphanumeric
characters, lowercased (column names here are ASCII). -/
def normalize (s : String) : String :=
  String.mk ((s.data.filter Char.isAlphanum).map Char.toLower)

/-- Python str.lower, per character (column names here are ASCII). -/
def strLower (s : String) : String :=
  String.mk (s.data.map Char.toLower)

/-- Lookup in the Python dict mapping col.lower() to col for col in the
existing columns: the last column with the given lowercased form wins. -/
def lowerLookup (cols : List String) (k : String) : Option String :=
  (cols.filter (fun c => strLower c == k)).getLast?

/-- Lookup in the Python dict mapping normalize(col) to col. -/
def normLookup (cols : List String) (k : String) : Option String :=
  (cols.filter (fun c => normalize c == k)).getLast?

/-- The hard-coded alias map (normalized old form to expected name). -/
def alias_map : List (String × String) :=
  [("manifestid", "manifest_id"), ("manifest", "manifest_id"),
   ("md5sum", "md5"), ("md5hash", "md5"), ("crack", "crack_type")]

def aliasLookup (k : String) : Option String :=
  (alias_map.find? (fun p => p.1 == k)).map Prod.snd

/-- Keys of a Python dict comprehension, in first-insertion order. -/
def dedupKeys (l : List String) : List String :=
  l.foldl (fun acc k => if acc.contains k then acc else acc ++ [k]) []

/-- Character-list test that `needle` starts the other list. -/
def charsEqPre : List Char → List Char → Bool
  | [], _ => true
  | _ :: _, [] => false
  | a :: xs, b :: ys => a == b && charsEqPre xs ys

/-- Character-list version of Python substring containment. -/
def charsSub (needle : List Char) : List Char → Bool
  | [] => needle.isEmpty
  | b :: bs => charsEqPre needle (b :: bs) || charsSub needle bs

def strSub (needle hay : String) : Bool :=
  charsSub needle.data hay.data

/-- Items of the normalized-name dict in dict order: keys in
first-insertion order, values overwritten by later columns. -/
def normItems (cols : List String) : List (String × String) :=
  (dedupKeys (cols.map normalize)).map
    (fun k => (k, ((cols.filter (fun c => normalize c == k)).getLast?).getD ""))

/-- Step 5 of the column matcher: substring fuzzy match between
normalized names, skipped when the expected normalized form is empty. -/
def fuzzyFind (expNorm : String) (cols : List String) : Option String :=
  if expNorm.isEmpty then none
  else ((normItems cols).find? (fun p => strSub expNorm p.1 || strSub p.1 expNorm)).map Prod.snd

/-- The per-expected-column matcher of migrate_table_schema, translated
branch by branch from the source: exact, then case-insensitive, then
normalized, then alias, then substring fuzzy match. -/
def mapColumn (existing : List String) (expectedName : String) : Option String :=
  if existing.contains expectedName then some expectedName
  else
    match lowerLookup existing (strLower expectedName) with
    | some c => some c
    | none =>
      match normLookup existing (normalize expectedName) with
      | some c => some c
      | none =>
        match (aliasLookup (normalize expectedName)).bind
            (fun target => normLookup existing (normalize target)) with
        | some c => some c
        | none => fuzzyFind (normalize expectedName) existing

/-- ALTER TABLE old RENAME TO new (fails when the source is missing or
the target name is taken). -/
def renameTable (db : DB) (oldName newName : String) : Except String DB :=
  if !(tableExists db oldName) then Except.error "no such table"
  else if tableExists db newName then Except.error "target table exists"
  else Except.ok (renameEntries db oldName newName)

def createTable (db : DB) (n : String) (cols : List String) : Except String DB :=
  if tableExists db n then Except.error "table already exists"
  else Except.ok (db ++ [(n, { cols := cols, rows := [] })])

def dropTable (db : DB) (n : String) : Except String DB :=
  if !(tableExists db n) then Except.error "no such table to drop"
  else Except.ok (dropEntries db n)

/-- One copied row of the rebuild migration: for each expected column the
matched old column value, or NULL when no strategy matched. -/
def mapRowVals (old : Table) (existing : List String) (expectedColumns : List (String × String)) (r : List Val) : List Val :=
  expectedColumns.map (fun ct =>
    match mapColumn existing ct.1 with
    | some c => valueAt old r c
    | none => Val.null)

/-- Rows copied without an old id column get fresh ids k, k+1, ... -/
def numberRows (k : Int) (f : List Val → List Val) : List (List Val) → List (List Val)
  | [] => []
  | r :: rs => (Val.int k :: f r) :: numberRows (k + 1) f rs

/-- The INSERT INTO new SELECT ... FROM old of the rebuild migration:
the old id is copied when the old table has one, otherwise ids are
assigned afresh from 1. -/
def migratedRows (old : Table) (existing : List String) (expectedColumns : List (String × String)) : List (List Val) :=
  if existing.contains "id" then
    old.rows.map (fun r => valueAt old r "id" :: mapRowVals old existing expectedColumns r)
  else
    numberRows 1 (mapRowVals old existing expectedColumns) old.rows

/-- The rename, create, copy, drop step sequence of migrate_table_schema,
each step able to fail. -/
def migrateSteps (db : DB) (tableName : String) (expectedColumns : List (String × String)) : Except String DB :=
  match renameTable db tableName (tableName ++ "_old_migrate") with
  | Except.error e => Except.error e
  | Except.ok db1 =>
    match createTable db1 tableName ("id" :: expectedColumns.map Prod.fst) with
    | Except.error e => Except.error e
    | Except.ok dbc =>
      match lookupTable dbc (tableName ++ "_old_migrate") with
      | none => Except.error "temp table lost"
      | some old =>
        dropTable
          (updateTable dbc tableName
            (fun t => { t with
              rows := t.rows ++ migratedRows old (get_table_columns db tableName) expectedColumns }))
          (tableName ++ "_old_migrate")

/-- Python migrate_table_schema: the step sequence runs inside one
transaction; any failure rolls the transaction back, leaving the
database exactly as it was. -/
def migrate_table_schema (db : DB) (tableName : String) (expectedColumns : List (String × String)) : DB :=
  match migrateSteps db tableName expectedColumns with
  | Except.ok db2 => db2
  | Except.error _ => db

/-- Python ensure_table_columns, translated branch by branch. -/
def ensure_table_columns (db : DB) (tableName : String) : DB :=
  match lookupSchema tableName with
  | none => db
  | some schema =>
    let expectedCols := schema.map Prod.fst
    let expectedFull := "id" :: expectedCols
    let existing := get_table_columns db tableName
    if sameSet existing expectedFull then db
    else if expectedCols.all (fun c => existing.contains c) then
      updateTable db tableName (fun t => addMissing t existing schema)
    else
      migrate_table_schema db tableName schema

/-- AUTOINCREMENT id for a new row, modelled as one more than the largest
integer id present.  The claims below never depend on the difference
from the persistent sqlite_sequence counter. -/
def nextAutoId (t : Table) : Int :=
  1 + t.rows.foldl (fun m r =>
    match valueAt t r "id" with
    | Val.int i => max m i
    | _ => m) 0

/-- The row built by an INSERT naming columns `colNames` with values
`vals`: named columns take the given values, id takes the fresh id,
remaining columns default to NULL. -/
def namedRow (tcols : List String) (colNames : List String) (vals : List Val) (idv : Val) : List Val :=
  tcols.map (fun c =>
    if c == "id" then idv
    else
      match idxOfCol colNames c with
      | some i => vals.getD i Val.null
      | none => Val.null)

def insertRecord (db : DB) (tableName : String) (colNames : List String) (vals : List Val) : Except String DB :=
  match lookupTable db tableName with
  | none => Except.error "no such table"
  | some t =>
    if colNames.all (fun c => t.cols.contains c) && vals.length == colNames.length then
      Except.ok (updateTable db tableName
        (fun u => { u with rows := u.rows ++ [namedRow u.cols colNames vals (Val.int (nextAutoId u))] }))
    else Except.error "insert arity or column mismatch"

/-- Python add_record: first ensure_table_columns, then a per-table
INSERT; the builds branch pads its values to 8 with empty strings; a
table name outside the five catalogs inserts nothing and still returns
true. -/
def add_record (db : DB) (tableName : String) (data : List Val) : Except String (DB × Bool) :=
  let db1 := ensure_table_columns db tableName
  if tableName == "builds" then
    (insertRecord db1 "builds"
      ["name", "manifest_id", "year", "season", "crack_type", "link", "md5", "description"]
      (data ++ List.replicate (8 - data.length) (Val.str ""))).map (fun d => (d, true))
  else if tableName == "tools" then
    (insertRecord db1 "tools" ["name", "version", "link", "description"] data).map (fun d => (d, true))
  else if tableName == "cheats" then
    (insertRecord db1 "cheats" ["name", "type", "link", "description"] data).map (fun d => (d, true))
  else if tableName == "downloaders" then
    (insertRecord db1 "downloaders" ["name", "link", "description"] data).map (fun d => (d, true))
  else if tableName == "preserved" then
    (insertRecord db1 "preserved" ["name", "link", "description"] data).map (fun d => (d, true))
  else Except.ok (db1, true)

/-- Python get_table_data: SELECT star FROM t (fails on a missing table). -/
def get_table_data (db : DB) (tableName : String) : Except String (List (List Val)) :=
  match lookupTable db tableName with
  | some t => Except.ok t.rows
  | none => Except.error "no such table"

/-- Python delete_record: DELETE FROM t WHERE id matches the parameter. -/
def delete_record (db : DB) (tableName : String) (recordId : Int) : Except String DB :=
  match lookupTable db tableName with
  | none => Except.error "no such table"
  | some t =>
    match idxOfCol t.cols "id" with
    | none => Except.error "no id column"
    | some j =>
      Except.ok (updateTable db tableName
        (fun u => { u with rows := u.rows.filter (fun r => !(r.getD j Val.null == Val.int recordId)) }))

/-- Modelled from the spec wording of claim C3, strategy 1: exact name
match. -/
def exactStrategy (existing : List String) (e : String) : Option String :=
  if existing.contains e then some e else none

/-- Modelled from the spec wording of claim C3, strategy 2:
case-insensitive match. -/
def ciStrategy (existing : List String) (e : String) : Option String :=
  lowerLookup existing (strLower e)

/-- Modelled from the spec wording of claim C3, strategy 3: normalized
match (lowercase, non-alphanumeric characters removed). -/
def normStrategy (existing : List String) (e : String) : Option String :=
  normLookup existing (normalize e)

/-- Modelled from the spec wording of claim C3, strategy 4: alias-table
match. -/
def aliasStrategy (existing : List String) (e : String) : Option String :=
  (aliasLookup (normalize e)).bind (fun target => normLookup existing (normalize target))

/-- Modelled from the spec wording of claim C3, strategy 5: substring
fuzzy match between normalized names. -/
def fuzzyStrategy (existing : List String) (e : String) : Option String :=
  fuzzyFind (normalize e) existing

/-- First successful result of a list of strategy outcomes. -/
def firstSome : List (Option String) → Option String
  | [] => none
  | some c :: _ => some c
  | none :: rest => firstSome rest

/-! Association-list and list lemmas used by the claim theorems. -/

theorem lookupTable_updateTable_self (db : DB) (n : String) (f : Table → Table) :
    lookupTable (updateTable db n f) n = (lookupTable db n).map f := by
  induction db with
  | nil => rfl
  | cons p rest ih =>
    by_cases h : p.1 == n
    · simp [updateTable, lookupTable, h]
    · simpa [updateTable, lookupTable, h] using ih

theorem lookupTable_updateTable_ne (db : DB) (n m : String) (f : Table → Table)
    (h : (m == n) = false) :
    lookupTable (updateTable db n f) m = lookupTable db m := by
  induction db with
  | nil => rfl
  | cons p rest ih =>
    by_cases hp : p.1 == n
    · have hpn : p.1 = n := by simpa using hp
      have hpm : (p.1 == m) = false := by
        rw [hpn]
        have : m ≠ n := by simpa using h
        simpa using fun hc => this hc.symm
      simpa [updateTable, lookupTable, hp, hpm] using ih
    · by_cases hm : p.1 == m
      · simp [updateTable, lookupTable, hp, hm]
      · simpa [updateTable, lookupTable, hp, hm] using ih

theorem lookupTable_rename_found (db : DB) (n temp : String)
    (hTemp : lookupTable db temp = none) :
    lookupTable (renameEntries db n temp) temp = lookupTable db n := by
  induction db with
  | nil => rfl
  | cons p rest ih =>
    have hpt : (p.1 == temp) = false := by
      cases hc : p.1 == temp
      · rfl
      · simp [lookupTable, hc] at hTemp
    have hrest : lookupTable rest temp = none := by
      simpa [lookupTable, hpt] using hTemp
    by_cases h : p.1 == n
    · simp [renameEntries, lookupTable, h]
    · simpa [renameEntries, lookupTable, h, hpt] using ih hrest

theorem lookupTable_rename_gone (db : DB) (n temp : String)
    (hne : (temp == n) = false) :
    lookupTable (renameEntries db n temp) n = none := by
  induction db with
  | nil => rfl
  | cons p rest ih =>
    by_cases h : p.1 == n
    · simpa [renameEntries, lookupTable, h, hne] using ih
    · simpa [renameEntries, lookupTable, h] using ih

theorem lookupTable_append_of_none (a b : DB) (n : String)
    (h : lookupTable a n = none) :
    lookupTable (a ++ b) n = lookupTable b n := by
  induction a with
  | nil => rfl
  | cons p rest ih =>
    by_cases hp : p.1 == n
    · simp [lookupTable, hp] at h
    · have hrest : lookupTable rest n = none := by
        simpa [lookupTable, hp] using h
      simpa [lookupTable, hp] using ih hrest

theorem lookupTable_append_of_some (a b : DB) (n : String) (t : Table)
    (h : lookupTable a n = some t) :
    lookupTable (a ++ b) n = some t := by
  induction a with
  | nil => simp [lookupTable] at h
  | cons p rest ih =>
    by_cases hp : p.1 == n
    · simp [lookupTable, hp] at h ⊢
      exact h
    · have hrest : lookupTable rest n = some t := by
        simpa [lookupTable, hp] using h
      simpa [lookupTable, hp] using ih hrest

theorem lookupTable_dropEntries_ne (db : DB) (temp n : String)
    (hne : (n == temp) = false) :
    lookupTable (dropEntries db temp) n = lookupTable db n := by
  induction db with
  | nil => rfl
  | cons p rest ih =>
    by_cases hp : p.1 == temp
    · have hpe : p.1 = temp := by simpa using hp
      have hpn : (p.1 == n) = false := by
        rw [hpe]
        have : n ≠ temp := by simpa using hne
        simpa using fun hc => this hc.symm
      simpa [lookupTable, dropEntries, hp, hpn] using ih
    · by_cases hn : p.1 == n
      · simp [lookupTable, dropEntries, hp, hn]
      · simpa [lookupTable, dropEntries, hp, hn] using ih

theorem self_beq_temp_false (n : String) : (n == n ++ "_old_migrate") = false := by
  apply beq_eq_false_iff_ne.mpr
  intro h
  have hlen := congrArg String.length h
  rw [String.length_append] at hlen
  have h12 : "_old_migrate".length = 12 := rfl
  omega

theorem sameSet_refl (l : List String) : sameSet l l = true := by
  simp [sameSet, List.all_eq_true]

theorem addMissing_of_all (schema : List (String × String)) (t : Table) (existing : List String)
    (h : schema.all (fun ct => existing.contains ct.1) = true) :
    addMissing t existing schema = t := by
  induction schema generalizing t with
  | nil => rfl
  | cons ct rest ih =>
    have hct : existing.contains ct.1 = true :=
      List.all_eq_true.mp h ct (List.mem_cons_self ct rest)
    have hrest : rest.all (fun ct => existing.contains ct.1) = true :=
      List.all_eq_true.mpr (fun x hx => List.all_eq_true.mp h x (List.mem_cons_of_mem ct hx))
    have hstep : addMissing t existing (ct :: rest) = addMissing t existing rest := by
      simp only [addMissing, List.foldl_cons, hct, if_true]
    rw [hstep, ih t hrest]

theorem addMissing_cols (schema : List (String × String)) (t : Table) (existing : List String) :
    (addMissing t existing schema).cols
      = t.cols ++ (schema.map Prod.fst).filter (fun c => !(existing.contains c)) := by
  induction schema generalizing t with
  | nil => simp [addMissing]
  | cons ct rest ih =>
    by_cases h : existing.contains ct.1 = true
    · have hmem : ct.1 ∈ existing := by simpa using h
      have hstep : addMissing t existing (ct :: rest) = addMissing t existing rest := by
        simp only [addMissing, List.foldl_cons, h, if_true]
      rw [hstep, ih t]
      congr 1
      simp [List.filter_cons, hmem]
    · have hb : existing.contains ct.1 = false := by
        cases hc : existing.contains ct.1
        · rfl
        · exact absurd hc h
      have hmem : ct.1 ∉ existing := by simpa using hb
      have hstep : addMissing t existing (ct :: rest)
          = addMissing (addColumn t ct.1) existing rest := by
        simp [addMissing, List.foldl_cons, hb, hmem]
      rw [hstep, ih (addColumn t ct.1)]
      simp [addColumn, List.filter_cons, hmem]

theorem map_getD_lt {α β : Type} (f : α → β) (d : β) (e : α) :
    ∀ (l : List α) (i : Nat), i < l.length → (l.map f).getD i d = f (l.getD i e)
  | [], i, h => absurd h (by simp)
  | a :: l, 0, _ => rfl
  | a :: l, i + 1, h => map_getD_lt f d e l i (Nat.lt_of_succ_lt_succ h)

theorem numberRows_length (f : List Val → List Val) :
    ∀ (l : List (List Val)) (k : Int), (numberRows k f l).length = l.length
  | [], _ => rfl
  | r :: rs, k => by simp [numberRows, numberRows_length f rs (k + 1)]

theorem numberRows_getD (f : List Val → List Val) :
    ∀ (l : List (List Val)) (k : Int) (i : Nat), i < l.length →
      (numberRows k f l).getD i [] = Val.int (k + i) :: f (l.getD i [])
  | [], _, i, h => absurd h (by simp)
  | r :: rs, k, 0, _ => by simp [numberRows]
  | r :: rs, k, i + 1, h => by
    have hrec := numberRows_getD f rs (k + 1) i (Nat.lt_of_succ_lt_succ h)
    have hcast : k + 1 + (i : Int) = k + ((i : Nat) + 1 : Nat) := by push_cast; ring
    simp only [numberRows, List.getD_cons_succ, hrec, hcast]

theorem length_filter_not_add {α : Type} (p : α → Bool) :
    ∀ l : List α, (l.filter (fun a => !(p a))).length + (l.filter p).length = l.length
  | [] => rfl
  | a :: l => by
    have := length_filter_not_add p l
    by_cases h : p a <;> simp [List.filter, h] <;> omega

theorem map_getD_idxOf {β : Type} (f : String → β) (d : β) :
    ∀ (names : List String) (e : String), e ∈ names →
      ∃ j, idxOfCol names e = some j ∧ (names.map f).getD j d = f e := by
  intro names
  induction names with
  | nil => intro e he; simp at he
  | cons c rest ih =>
    intro e he
    by_cases hc : c == e
    · have : c = e := by simpa using hc
      exact ⟨0, by simp [idxOfCol, hc], by simp [this]⟩
    · have hmem : e ∈ rest := by
        rcases List.mem_cons.mp he with h | h
        · exact absurd h.symm (by simpa using hc)
        · exact h
      obtain ⟨j, hj, hv⟩ := ih e hmem
      exact ⟨j + 1, by simp [idxOfCol, hc, hj], by simpa using hv⟩

theorem map_getD_self {α : Type} (d : α) :
    ∀ (names : List String) (vals : List α), names.Nodup → vals.length = names.length →
      names.map (fun c =>
        match idxOfCol names c with
        | some i => vals.getD i d
        | none => d) = vals := by
  intro names
  induction names with
  | nil =>
    intro vals _ hlen
    have : vals = [] := List.length_eq_zero.mp (by simpa using hlen)
    simp [this]
  | cons c rest ih =>
    intro vals hnd hlen
    match vals with
    | [] => simp at hlen
    | v :: vs =>
      have hndc : c ∉ rest := (List.nodup_cons.mp hnd).1
      have hndr : rest.Nodup := (List.nodup_cons.mp hnd).2
      have hlenr : vs.length = rest.length := by simpa using hlen
      have hhead : idxOfCol (c :: rest) c = some 0 := by simp [idxOfCol]
      have hfc : (match idxOfCol (c :: rest) c with
          | some i => (v :: vs).getD i d
          | none => d) = v := by simp [hhead]
      have htail : rest.map (fun x =>
          match idxOfCol (c :: rest) x with
          | some i => (v :: vs).getD i d
          | none => d) = rest.map (fun x =>
          match idxOfCol rest x with
          | some i => vs.getD i d
          | none => d) := by
        apply List.map_congr_left
        intro x hx
        have hxc : (c == x) = false := by
          have : c ≠ x := fun hcx => hndc (hcx ▸ hx)
          simpa using this
        have hidx : idxOfCol (c :: rest) x = (idxOfCol rest x).map (· + 1) := by
          simp [idxOfCol, hxc]
        rw [hidx]
        cases idxOfCol rest x <;> simp
      simp only [List.map_cons, hfc]
      rw [htail, ih vs hndr hlenr]

theorem migratedRows_length (old : Table) (existing : List String) (s : List (String × String)) :
    (migratedRows old existing s).length = old.rows.length := by
  unfold migratedRows
  by_cases h : existing.contains "id" = true
  · have hmem : "id" ∈ existing := by simpa using h
    simp [h, hmem]
  · have hb : existing.contains "id" = false := by
      cases hc : existing.contains "id"
      · rfl
      · exact absurd hc h
    have hmem : "id" ∉ existing := by simpa using hb
    simp [hb, hmem, numberRows_length]

theorem migratedRows_getD (old : Table) (existing : List String) (s : List (String × String))
    (i : Nat) (hi : i < old.rows.length) :
    ∃ idv, (migratedRows old existing s).getD i []
        = idv :: mapRowVals old existing s (old.rows.getD i [])
      ∧ (existing.contains "id" = true → idv = valueAt old (old.rows.getD i []) "id") := by
  unfold migratedRows
  by_cases h : existing.contains "id" = true
  · refine ⟨valueAt old (old.rows.getD i []) "id", ?_, fun _ => rfl⟩
    simp only [h, if_true]
    exact map_getD_lt (fun r => valueAt old r "id" :: mapRowVals old existing s r) [] []
      old.rows i hi
  · have hb : existing.contains "id" = false := by
      cases hc : existing.contains "id"
      · rfl
      · exact absurd hc h
    refine ⟨Val.int (1 + i), ?_, fun hc => absurd hc h⟩
    simp only [hb, Bool.false_eq_true, if_false]
    exact numberRows_getD (mapRowVals old existing s) old.rows 1 i hi

theorem migrateSteps_ok_structure (db : DB) (n : String) (s : List (String × String))
    (dbf : DB) (t : Table)
    (ht : lookupTable db n = some t)
    (hok : migrateSteps db n s = Except.ok dbf) :
    lookupTable dbf n
      = some { cols := "id" :: s.map Prod.fst, rows := migratedRows t t.cols s } := by
  have hne : (n == n ++ "_old_migrate") = false := self_beq_temp_false n
  have hne2 : ((n ++ "_old_migrate") == n) = false := by
    apply beq_eq_false_iff_ne.mpr
    intro h
    exact (beq_eq_false_iff_ne.mp hne) h.symm
  unfold migrateSteps at hok
  cases hrn : renameTable db n (n ++ "_old_migrate") with
  | error e => rw [hrn] at hok; simp at hok
  | ok db1 =>
    rw [hrn] at hok
    simp only [] at hok
    unfold renameTable at hrn
    by_cases hsrc : tableExists db n = true
    case neg => simp [hsrc] at hrn
    case pos =>
    by_cases htmp : tableExists db (n ++ "_old_migrate") = true
    case pos => simp [hsrc, htmp] at hrn
    case neg =>
    have htmpn : lookupTable db (n ++ "_old_migrate") = none := by
      unfold tableExists at htmp
      cases hlt : lookupTable db (n ++ "_old_migrate")
      · rfl
      · rw [hlt] at htmp; simp at htmp
    have hdb1 : db1 = renameEntries db n (n ++ "_old_migrate") := by
      simp [hsrc, htmp] at hrn
      exact hrn.symm
    have h1 : lookupTable db1 (n ++ "_old_migrate") = some t := by
      rw [hdb1, lookupTable_rename_found db n _ htmpn]
      exact ht
    have h2 : lookupTable db1 n = none := by
      rw [hdb1]
      exact lookupTable_rename_gone db n _ hne2
    cases hcr : createTable db1 n ("id" :: s.map Prod.fst) with
    | error e => rw [hcr] at hok; simp at hok
    | ok dbc =>
      rw [hcr] at hok
      simp only [] at hok
      unfold createTable at hcr
      have hex1 : tableExists db1 n = false := by
        unfold tableExists
        rw [h2]
        rfl
      rw [hex1] at hcr
      simp at hcr
      have h3 : lookupTable dbc (n ++ "_old_migrate") = some t := by
        rw [← hcr]
        exact lookupTable_append_of_some _ _ _ _ h1
      have h4 : lookupTable dbc n
          = some { cols := "id" :: s.map Prod.fst, rows := ([] : List (List Val)) } := by
        rw [← hcr, lookupTable_append_of_none _ _ _ h2]
        simp [lookupTable]
      rw [h3] at hok
      simp only [] at hok
      have hexist : get_table_columns db n = t.cols := by
        simp [get_table_columns, ht]
      have h5 : lookupTable (updateTable dbc n
          (fun u => { u with rows := u.rows ++ migratedRows t (get_table_columns db n) s })) n
          = some { cols := "id" :: s.map Prod.fst,
                   rows := migratedRows t t.cols s } := by
        rw [lookupTable_updateTable_self, h4, hexist]
        simp
      have h6 : lookupTable (updateTable dbc n
          (fun u => { u with rows := u.rows ++ migratedRows t (get_table_columns db n) s }))
          (n ++ "_old_migrate") = some t := by
        rw [lookupTable_updateTable_ne _ _ _ _ hne2]
        exact h3
      unfold dropTable at hok
      have hex3 : tableExists (updateTable dbc n
          (fun u => { u with rows := u.rows ++ migratedRows t (get_table_columns db n) s }))
          (n ++ "_old_migrate") = true := by
        unfold tableExists
        rw [h6]
        rfl
      rw [hex3] at hok
      simp at hok
      rw [← hok, lookupTable_dropEntries_ne _ _ _ hne]
      exact h5

theorem ensure_additive_eq (db : DB) (n : String) (s : List (String × String)) (t : Table)
    (hs : lookupSchema n = some s)
    (ht : lookupTable db n = some t)
    (hsub : (s.map Prod.fst).all (fun c => t.cols.contains c) = true)
    (hne : sameSet t.cols ("id" :: s.map Prod.fst) = false) :
    ensure_table_columns db n = updateTable db n (fun u => addMissing u t.cols s) := by
  have hexist : get_table_columns db n = t.cols := by
    simp [get_table_columns, ht]
  unfold ensure_table_columns
  simp only [hs, hexist, hne, hsub, Bool.false_eq_true, if_false, if_true]

/-! Claim theorems. -/

/-- C1: for a registry table whose expected column names are all among the
actual columns while the actual columns are not exactly the id column plus
the expected ones, ensure_table_columns takes the additive branch, adding
exactly the expected columns missing from the table, after which the table
contains every expected column. -/
theorem C1_additive_branch_adds_missing (db : DB) (n : String) (s : List (String × String)) (t : Table)
    (hs : lookupSchema n = some s)
    (ht : lookupTable db n = some t)
    (hsub : (s.map Prod.fst).all (fun c => t.cols.contains c) = true)
    (hne : sameSet t.cols ("id" :: s.map Prod.fst) = false) :
    get_table_columns (ensure_table_columns db n) n
        = t.cols ++ (s.map Prod.fst).filter (fun c => !(t.cols.contains c)) ∧
      ∀ c ∈ s.map Prod.fst, c ∈ get_table_columns (ensure_table_columns db n) n := by
  have heq := ensure_additive_eq db n s t hs ht hsub hne
  have hcols : get_table_columns (ensure_table_columns db n) n
      = (addMissing t t.cols s).cols := by
    rw [heq]
    simp [get_table_columns, lookupTable_updateTable_self, ht]
  constructor
  · rw [hcols, addMissing_cols]
  · intro c hc
    rw [hcols, addMissing_cols]
    have hcc : t.cols.contains c = true := List.all_eq_true.mp hsub c hc
    have : c ∈ t.cols := by simpa using hcc
    simp [List.mem_append, this]

/-- C5: on the additive branch of ensure_table_columns every pre-existing
row survives with unchanged values in every column that existed before
(in fact the additive branch, guarded by the expected columns being a
subset of the actual ones, has nothing to add and leaves the table as it
was). -/
theorem C5_additive_branch_preserves_rows (db : DB) (n : String) (s : List (String × String)) (t : Table)
    (hs : lookupSchema n = some s)
    (ht : lookupTable db n = some t)
    (hsub : (s.map Prod.fst).all (fun c => t.cols.contains c) = true)
    (hne : sameSet t.cols ("id" :: s.map Prod.fst) = false) :
    ∃ t2, lookupTable (ensure_table_columns db n) n = some t2 ∧
      t2.rows = t.rows ∧
      ∀ (i : Nat), ∀ c ∈ t.cols,
        valueAt t2 (t2.rows.getD i []) c = valueAt t (t.rows.getD i []) c := by
  have heq := ensure_additive_eq db n s t hs ht hsub hne
  have hadd : addMissing t t.cols s = t := by
    apply addMissing_of_all
    apply List.all_eq_true.mpr
    intro ct hct
    exact List.all_eq_true.mp hsub ct.1 (List.mem_map_of_mem Prod.fst hct)
  refine ⟨t, ?_, rfl, fun i c hc => rfl⟩
  rw [heq, lookupTable_updateTable_self, ht]
  simp [hadd]

/-- C3: the old column matched to an expected column is chosen by trying,
in order and stopping at the first success: exact match, case-insensitive
match, normalized match, alias-table match, substring fuzzy match. -/
theorem C3_strategy_priority (existing : List String) (e : String) :
    mapColumn existing e = firstSome
      [exactStrategy existing e, ciStrategy existing e, normStrategy existing e,
       aliasStrategy existing e, fuzzyStrategy existing e] := by
  unfold mapColumn exactStrategy ciStrategy normStrategy aliasStrategy fuzzyStrategy
  by_cases h : existing.contains e = true
  · have hmem : e ∈ existing := by simpa using h
    simp [hmem, firstSome]
  · have hb : existing.contains e = false := by
      cases hc : existing.contains e
      · rfl
      · exact absurd hc h
    simp only [hb, Bool.false_eq_true, if_false]
    cases h1 : lowerLookup existing (strLower e)
    · cases h2 : normLookup existing (normalize e)
      · cases h3 : (aliasLookup (normalize e)).bind
            (fun target => normLookup existing (normalize target))
        · cases h4 : fuzzyFind (normalize e) existing <;>
            simp [firstSome, h1, h2, h3, h4]
        · simp [firstSome, h1, h2, h3]
      · simp [firstSome, h1, h2]
    · simp [firstSome, h1]

/-- C4: migrate_table_schema runs rename, create, copy and drop as one
transaction; when any step fails the rollback leaves the database, and in
particular the migrated table with its schema and rows, exactly as it was. -/
theorem C4_rollback_restores_db (db : DB) (n : String) (s : List (String × String)) (e : String)
    (hfail : migrateSteps db n s = Except.error e) :
    migrate_table_schema db n s = db ∧
      lookupTable (migrate_table_schema db n s) n = lookupTable db n := by
  have h : migrate_table_schema db n s = db := by
    unfold migrate_table_schema
    rw [hfail]
  exact ⟨h, by rw [h]⟩

theorem lookupSchema_none_of_not_catalog (n : String)
    (hn : n ∉ ["builds", "tools", "cheats", "downloaders", "preserved"]) :
    lookupSchema n = none := by
  simp only [List.mem_cons, List.mem_singleton, not_or] at hn
  obtain ⟨h1, h2, h3, h4, h5, -⟩ := hn
  have b1 : ("builds" == n) = false := beq_eq_false_iff_ne.mpr (fun h => h1 h.symm)
  have b2 : ("tools" == n) = false := beq_eq_false_iff_ne.mpr (fun h => h2 h.symm)
  have b3 : ("cheats" == n) = false := beq_eq_false_iff_ne.mpr (fun h => h3 h.symm)
  have b4 : ("downloaders" == n) = false := beq_eq_false_iff_ne.mpr (fun h => h4 h.symm)
  have b5 : ("preserved" == n) = false := beq_eq_false_iff_ne.mpr (fun h => h5 h.symm)
  unfold lookupSchema expected_schema
  simp [List.find?, b1, b2, b3, b4, b5]

theorem ensure_noop_of_not_catalog (db : DB) (n : String)
    (hn : n ∉ ["builds", "tools", "cheats", "downloaders", "preserved"]) :
    ensure_table_columns db n = db := by
  have hsch : lookupSchema n = none := lookupSchema_none_of_not_catalog n hn
  unfold ensure_table_columns
  simp only [hsch]

/-- C10: calling ensure_table_columns with a table name outside the five
catalog tables returns at once, leaving the database untouched. -/
theorem C10_unknown_table_keeps_db (db : DB) (n : String)
    (hn : n ∉ ["builds", "tools", "cheats", "downloaders", "preserved"]) :
    ensure_table_columns db n = db :=
  ensure_noop_of_not_catalog db n hn

/-- C8: add_record with a table name outside the five catalog tables
performs no insert, leaves the database unchanged and still returns true. -/
theorem C8_unknown_table_add_record_true (db : DB) (n : String) (data : List Val)
    (hn : n ∉ ["builds", "tools", "cheats", "downloaders", "preserved"]) :
    add_record db n data = Except.ok (db, true) := by
  have hens : ensure_table_columns db n = db := ensure_noop_of_not_catalog db n hn
  simp only [List.mem_cons, List.mem_singleton, not_or] at hn
  obtain ⟨h1, h2, h3, h4, h5, -⟩ := hn
  have b1 : (n == "builds") = false := beq_eq_false_iff_ne.mpr h1
  have b2 : (n == "tools") = false := beq_eq_false_iff_ne.mpr h2
  have b3 : (n == "cheats") = false := beq_eq_false_iff_ne.mpr h3
  have b4 : (n == "downloaders") = false := beq_eq_false_iff_ne.mpr h4
  have b5 : (n == "preserved") = false := beq_eq_false_iff_ne.mpr h5
  unfold add_record
  simp only [hens, b1, b2, b3, b4, b5, Bool.false_eq_true, if_false]

/-- C7 counterexample: the claim quantifies over every record id, but
deleting an id that no row carries removes nothing: on a one-row tools
table, delete_record with id 2 returns the database unchanged, so the
table does not end up with exactly one row fewer (it still has 1 row,
not 0). -/
theorem C7_counterexample :
    delete_record
        [("tools", { cols := ["id", "name", "version", "link", "description"],
                     rows := [[Val.int 1, Val.str "a", Val.null, Val.null, Val.null]] })]
        "tools" 2
      = Except.ok
        [("tools", { cols := ["id", "name", "version", "link", "description"],
                     rows := [[Val.int 1, Val.str "a", Val.null, Val.null, Val.null]] })] ∧
    (get_table_data
        [("tools", { cols := ["id", "name", "version", "link", "description"],
                     rows := [[Val.int 1, Val.str "a", Val.null, Val.null, Val.null]] })]
        "tools").map List.length ≠ Except.ok 0 := by
  constructor
  · rfl
  · intro h
    simp [get_table_data, lookupTable, Except.map] at h

/-- C7 amended: for every table and every record id carried by exactly one
row, delete_record removes exactly that row: afterwards the table has one
row fewer, the surviving rows are exactly those whose id differs from the
given one, and every removed row carried the given id. -/
theorem C7_delete_removes_matching_row (db : DB) (n : String) (rid : Int) (t : Table) (j : Nat)
    (ht : lookupTable db n = some t)
    (hj : idxOfCol t.cols "id" = some j)
    (hone : (t.rows.filter (fun r => r.getD j Val.null == Val.int rid)).length = 1) :
    ∃ db2, delete_record db n rid = Except.ok db2 ∧
      lookupTable db2 n
        = some { t with rows := t.rows.filter (fun r => !(r.getD j Val.null == Val.int rid)) } ∧
      (t.rows.filter (fun r => !(r.getD j Val.null == Val.int rid))).length + 1 = t.rows.length ∧
      ∀ r ∈ t.rows, r ∉ t.rows.filter (fun r => !(r.getD j Val.null == Val.int rid)) →
        r.getD j Val.null = Val.int rid := by
  refine ⟨updateTable db n
      (fun u => { u with rows := u.rows.filter (fun r => !(r.getD j Val.null == Val.int rid)) }),
    ?_, ?_, ?_, ?_⟩
  · unfold delete_record
    simp only [ht, hj]
  · rw [lookupTable_updateTable_self, ht]
    rfl
  · have := length_filter_not_add (fun r => r.getD j Val.null == Val.int rid) t.rows
    omega
  · intro r hr hnr
    by_cases hp : (r.getD j Val.null == Val.int rid) = true
    · simpa using hp
    · exfalso
      apply hnr
      apply List.mem_filter.mpr
      refine ⟨hr, ?_⟩
      have hb : (r.getD j Val.null == Val.int rid) = false := by
        cases hc : r.getD j Val.null == Val.int rid
        · rfl
        · exact absurd hc hp
      have hne2 := beq_eq_false_iff_ne.mp hb
      simpa [List.getD] using hne2

/-- C2: after a successful rebuild migration, each rebuilt row holds, at
every expected column, the value the corresponding old row had in the old
column that the matcher mapped to it, and NULL when no old column
matched. -/
theorem C2_migration_copies_matched_values (db dbf : DB) (n : String)
    (s : List (String × String)) (t tf : Table)
    (ht : lookupTable db n = some t)
    (hok : migrateSteps db n s = Except.ok dbf)
    (htf : lookupTable dbf n = some tf)
    (hnid : "id" ∉ s.map Prod.fst)
    (i : Nat) (hi : i < t.rows.length) (e : String) (he : e ∈ s.map Prod.fst) :
    tf.rows.length = t.rows.length ∧
    valueAt tf (tf.rows.getD i []) e
      = (match mapColumn t.cols e with
         | some c => valueAt t (t.rows.getD i []) c
         | none => Val.null) := by
  have hstruct := migrateSteps_ok_structure db n s dbf t ht hok
  rw [hstruct] at htf
  have htf2 : ({ cols := "id" :: s.map Prod.fst,
                 rows := migratedRows t t.cols s } : Table) = tf :=
    Option.some.inj htf
  have hc : tf.cols = "id" :: s.map Prod.fst := by rw [← htf2]
  have hr : tf.rows = migratedRows t t.cols s := by rw [← htf2]
  obtain ⟨idv, hrow, -⟩ := migratedRows_getD t t.cols s i hi
  have hide : ("id" == e) = false := by
    apply beq_eq_false_iff_ne.mpr
    intro hh
    exact hnid (hh ▸ he)
  obtain ⟨j, hj, hv⟩ := map_getD_idxOf
    (fun x => match mapColumn t.cols x with
      | some c => valueAt t (t.rows.getD i []) c
      | none => Val.null) Val.null (s.map Prod.fst) e he
  have hmap : mapRowVals t t.cols s (t.rows.getD i [])
      = (s.map Prod.fst).map (fun x => match mapColumn t.cols x with
          | some c => valueAt t (t.rows.getD i []) c
          | none => Val.null) := by
    simp [mapRowVals, List.map_map, Function.comp]
  have hidx : idxOfCol ("id" :: s.map Prod.fst) e = some (j + 1) := by
    simp [idxOfCol, hide, hj]
  constructor
  · rw [hr]
    exact migratedRows_length t t.cols s
  · have hL : valueAt tf (tf.rows.getD i []) e
        = (mapRowVals t t.cols s (t.rows.getD i [])).getD j Val.null := by
      unfold valueAt
      rw [hc, hidx]
      show (tf.rows.getD i []).getD (j + 1) Val.null = _
      rw [hr, hrow, List.getD_cons_succ]
    rw [hL, hmap]
    exact hv

/-- C9: when the old table has an id column, every rebuilt row keeps the
id value of the corresponding old row across the destructive migration. -/
theorem C9_migration_keeps_ids (db dbf : DB) (n : String)
    (s : List (String × String)) (t tf : Table)
    (ht : lookupTable db n = some t)
    (hok : migrateSteps db n s = Except.ok dbf)
    (htf : lookupTable dbf n = some tf)
    (hid : t.cols.contains "id" = true)
    (i : Nat) (hi : i < t.rows.length) :
    valueAt tf (tf.rows.getD i []) "id" = valueAt t (t.rows.getD i []) "id" := by
  have hstruct := migrateSteps_ok_structure db n s dbf t ht hok
  rw [hstruct] at htf
  have htf2 : ({ cols := "id" :: s.map Prod.fst,
                 rows := migratedRows t t.cols s } : Table) = tf :=
    Option.some.inj htf
  have hc : tf.cols = "id" :: s.map Prod.fst := by rw [← htf2]
  have hr : tf.rows = migratedRows t t.cols s := by rw [← htf2]
  obtain ⟨idv, hrow, hidv⟩ := migratedRows_getD t t.cols s i hi
  have hidx : idxOfCol ("id" :: s.map Prod.fst) "id" = some 0 := by
    simp [idxOfCol]
  have hL : valueAt tf (tf.rows.getD i []) "id" = idv := by
    unfold valueAt
    rw [hc, hidx]
    show (tf.rows.getD i []).getD 0 Val.null = _
    rw [hr, hrow, List.getD_cons_zero]
  rw [hL, hidv hid]

theorem insertRecord_canonical (db : DB) (n : String) (names : List String)
    (t : Table) (vals : List Val)
    (ht : lookupTable db n = some t)
    (hcols : t.cols = "id" :: names)
    (hnodup : names.Nodup)
    (hnid : "id" ∉ names)
    (hlen : vals.length = names.length) :
    ∃ db2, insertRecord db n names vals = Except.ok db2 ∧
      lookupTable db2 n
        = some { t with rows := t.rows ++ [Val.int (nextAutoId t) :: vals] } := by
  have hrow : namedRow ("id" :: names) names vals (Val.int (nextAutoId t))
      = Val.int (nextAutoId t) :: vals := by
    unfold namedRow
    rw [List.map_cons]
    congr 1
    calc _ = names.map (fun c => match idxOfCol names c with
            | some i => vals.getD i Val.null
            | none => Val.null) :=
          List.map_congr_left (fun c hcmem => by
            have hne : c ≠ "id" := fun h => hnid (h ▸ hcmem)
            have hcid : (c == "id") = false := beq_eq_false_iff_ne.mpr hne
            simp [hne, hcid])
      _ = vals := map_getD_self Val.null names vals hnodup hlen
  have hrowt : namedRow t.cols names vals (Val.int (nextAutoId t))
      = Val.int (nextAutoId t) :: vals := by
    rw [hcols]
    exact hrow
  have hall : names.all (fun c => t.cols.contains c) = true := by
    apply List.all_eq_true.mpr
    intro c hcmem
    rw [hcols]
    simp [hcmem]
  have hlenb : (vals.length == names.length) = true := by simp [hlen]
  have hcond : (names.all (fun c => t.cols.contains c) && vals.length == names.length) = true := by
    rw [hall, hlenb]
    rfl
  refine ⟨updateTable db n
      (fun u => { u with
        rows := u.rows ++ [namedRow u.cols names vals (Val.int (nextAutoId u))] }),
    ?_, ?_⟩
  · unfold insertRecord
    simp only [ht, hcond, if_true]
  · rw [lookupTable_updateTable_self, ht]
    simp [hrowt]

/-- C6: on each of the five catalog tables in its expected shape, adding a
record with values matching the field list and then reading the table back
returns the old rows plus one new row whose non-id fields are exactly the
inserted values. -/
theorem C6_add_then_get_round_trip (db : DB) (n : String) (s : List (String × String))
    (t : Table) (data : List Val)
    (hn : n ∈ ["builds", "tools", "cheats", "downloaders", "preserved"])
    (hs : lookupSchema n = some s)
    (ht : lookupTable db n = some t)
    (hcols : t.cols = "id" :: s.map Prod.fst)
    (hlen : data.length = s.length) :
    ∃ db2, add_record db n data = Except.ok (db2, true) ∧
      get_table_data db2 n = Except.ok (t.rows ++ [Val.int (nextAutoId t) :: data]) := by
  have hexist : get_table_columns db n = t.cols := by
    simp [get_table_columns, ht]
  have hens : ensure_table_columns db n = db := by
    unfold ensure_table_columns
    simp only [hs, hexist, hcols, sameSet_refl, if_true]
  simp only [List.mem_cons, List.not_mem_nil, or_false, List.mem_singleton] at hn
  rcases hn with rfl | rfl | rfl | rfl | rfl
  · have hs2 : s = [("name", "TEXT"), ("manifest_id", "TEXT"), ("year", "INTEGER"), ("season", "TEXT"), ("crack_type", "TEXT"), ("link", "TEXT"), ("md5", "TEXT"), ("description", "TEXT")] := by
      have hv : lookupSchema "builds" = some ([("name", "TEXT"), ("manifest_id", "TEXT"), ("year", "INTEGER"), ("season", "TEXT"), ("crack_type", "TEXT"), ("link", "TEXT"), ("md5", "TEXT"), ("description", "TEXT")]) := rfl
      rw [hv] at hs
      exact (Option.some.inj hs).symm
    subst hs2
    obtain ⟨db2, hins, hlook⟩ := insertRecord_canonical db "builds" ["name", "manifest_id", "year", "season", "crack_type", "link", "md5", "description"] t data ht
      (by simpa using hcols) (by decide) (by decide) (by simpa using hlen)
    refine ⟨db2, ?_, ?_⟩
    · have hpad : data ++ List.replicate (8 - data.length) (Val.str "") = data := by
        rw [show data.length = 8 from by simpa using hlen]
        simp
      simp [add_record, hens, hpad, hins, Except.map]
    · simp [get_table_data, hlook]
  · have hs2 : s = [("name", "TEXT"), ("version", "TEXT"), ("link", "TEXT"), ("description", "TEXT")] := by
      have hv : lookupSchema "tools" = some ([("name", "TEXT"), ("version", "TEXT"), ("link", "TEXT"), ("description", "TEXT")]) := rfl
      rw [hv] at hs
      exact (Option.some.inj hs).symm
    subst hs2
    obtain ⟨db2, hins, hlook⟩ := insertRecord_canonical db "tools" ["name", "version", "link", "description"] t data ht
      (by simpa using hcols) (by decide) (by decide) (by simpa using hlen)
    refine ⟨db2, ?_, ?_⟩
    · simp [add_record, hens, hins, Except.map]
    · simp [get_table_data, hlook]
  · have hs2 : s = [("name", "TEXT"), ("type", "TEXT"), ("link", "TEXT"), ("description", "TEXT")] := by
      have hv : lookupSchema "cheats" = some ([("name", "TEXT"), ("type", "TEXT"), ("link", "TEXT"), ("description", "TEXT")]) := rfl
      rw [hv] at hs
      exact (Option.some.inj hs).symm
    subst hs2
    obtain ⟨db2, hins, hlook⟩ := insertRecord_canonical db "cheats" ["name", "type", "link", "description"] t data ht
      (by simpa using hcols) (by decide) (by decide) (by simpa using hlen)
    refine ⟨db2, ?_, ?_⟩
    · simp [add_record, hens, hins, Except.map]
    · simp [get_table_data, hlook]
  · have hs2 : s = [("name", "TEXT"), ("link", "TEXT"), ("description", "TEXT")] := by
      have hv : lookupSchema "downloaders" = some ([("name", "TEXT"), ("link", "TEXT"), ("description", "TEXT")]) := rfl
      rw [hv] at hs
      exact (Option.some.inj hs).symm
    subst hs2
    obtain ⟨db2, hins, hlook⟩ := insertRecord_canonical db "downloaders" ["name", "link", "description"] t data ht
      (by simpa using hcols) (by decide) (by decide) (by simpa using hlen)
    refine ⟨db2, ?_, ?_⟩
    · simp [add_record, hens, hins, Except.map]
    · simp [get_table_data, hlook]
  · have hs2 : s = [("name", "TEXT"), ("link", "TEXT"), ("description", "TEXT")] := by
      have hv : lookupSchema "preserved" = some ([("name", "TEXT"), ("link", "TEXT"), ("description", "TEXT")]) := rfl
      rw [hv] at hs
      exact (Option.some.inj hs).symm
    subst hs2
    obtain ⟨db2, hins, hlook⟩ := insertRecord_canonical db "preserved" ["name", "link", "description"] t data ht
      (by simpa using hcols) (by decide) (by decide) (by simpa using hlen)
    refine ⟨db2, ?_, ?_⟩
    · simp [add_record, hens, hins, Except.map]
    · simp [get_table_data, hlook]
/-! Concrete witnesses: each applies its claim theorem at an explicit
database, discharging the hypotheses by computation. -/

def C1table : Table :=
  { cols := ["name", "link", "description"],
    rows := [[Val.str "x", Val.null, Val.null]] }

def C1db : DB := [("preserved", C1table)]

def presSchema : List (String × String) :=
  [("name", "TEXT"), ("link", "TEXT"), ("description", "TEXT")]

theorem C1_witness :
    ((presSchema.map Prod.fst).all (fun c => C1table.cols.contains c) = true) ∧
    sameSet C1table.cols ("id" :: presSchema.map Prod.fst) = false ∧
    (get_table_columns (ensure_table_columns C1db "preserved") "preserved"
        = C1table.cols
          ++ (presSchema.map Prod.fst).filter (fun c => !(C1table.cols.contains c)) ∧
      ∀ c ∈ presSchema.map Prod.fst,
        c ∈ get_table_columns (ensure_table_columns C1db "preserved") "preserved") :=
  ⟨by decide, by decide,
    C1_additive_branch_adds_missing C1db "preserved" presSchema C1table rfl rfl
      (by decide) (by decide)⟩

theorem C5_witness :
    ∃ t2, lookupTable (ensure_table_columns C1db "preserved") "preserved" = some t2 ∧
      t2.rows = C1table.rows ∧
      ∀ (i : Nat), ∀ c ∈ C1table.cols,
        valueAt t2 (t2.rows.getD i []) c = valueAt C1table (C1table.rows.getD i []) c :=
  C5_additive_branch_preserves_rows C1db "preserved" presSchema C1table rfl rfl
    (by decide) (by decide)

def C2old : Table :=
  { cols := ["id", "Name"], rows := [[Val.int 7, Val.str "x"]] }

def C2db : DB := [("preserved", C2old)]

def C2newTable : Table :=
  { cols := ["id", "name", "link", "description"],
    rows := [[Val.int 7, Val.str "x", Val.null, Val.null]] }

def C2dbf : DB := [("preserved", C2newTable)]

theorem C2_witness :
    migrateSteps C2db "preserved" presSchema = Except.ok C2dbf ∧
    (C2newTable.rows.length = C2old.rows.length ∧
      valueAt C2newTable (C2newTable.rows.getD 0 []) "name"
        = (match mapColumn C2old.cols "name" with
           | some c => valueAt C2old (C2old.rows.getD 0 []) c
           | none => Val.null)) :=
  ⟨by decide,
    C2_migration_copies_matched_values C2db C2dbf "preserved" presSchema C2old C2newTable
      rfl (by decide) rfl (by decide) 0 (by decide) "name" (by decide)⟩

theorem C9_witness :
    C2old.cols.contains "id" = true ∧
    valueAt C2newTable (C2newTable.rows.getD 0 []) "id"
      = valueAt C2old (C2old.rows.getD 0 []) "id" :=
  ⟨by decide,
    C9_migration_keeps_ids C2db C2dbf "preserved" presSchema C2old C2newTable
      rfl (by decide) rfl (by decide) 0 (by decide)⟩

def C4db : DB :=
  [("tools", { cols := ["id", "name"], rows := [[Val.int 1, Val.str "a"]] }),
   ("tools_old_migrate", { cols := ["id"], rows := [] })]

theorem C4_witness :
    migrateSteps C4db "tools" [("name", "TEXT")] = Except.error "target table exists" ∧
    (migrate_table_schema C4db "tools" [("name", "TEXT")] = C4db ∧
      lookupTable (migrate_table_schema C4db "tools" [("name", "TEXT")]) "tools"
        = lookupTable C4db "tools") :=
  ⟨rfl, C4_rollback_restores_db C4db "tools" [("name", "TEXT")] "target table exists" rfl⟩

def C6table : Table :=
  { cols := ["id", "name", "version", "link", "description"], rows := [] }

def C6db : DB := [("tools", C6table)]

theorem C6_witness :
    ∃ db2, add_record C6db "tools" [Val.str "n", Val.str "v", Val.str "l", Val.str "d"]
        = Except.ok (db2, true) ∧
      get_table_data db2 "tools"
        = Except.ok (C6table.rows
            ++ [Val.int (nextAutoId C6table)
                 :: [Val.str "n", Val.str "v", Val.str "l", Val.str "d"]]) :=
  C6_add_then_get_round_trip C6db "tools"
    [("name", "TEXT"), ("version", "TEXT"), ("link", "TEXT"), ("description", "TEXT")]
    C6table [Val.str "n", Val.str "v", Val.str "l", Val.str "d"]
    (by decide) rfl rfl rfl rfl

def C7table : Table :=
  { cols := ["id", "name"],
    rows := [[Val.int 1, Val.str "a"], [Val.int 2, Val.str "b"]] }

def C7db : DB := [("tools", C7table)]

theorem C7_witness :
    (C7table.rows.filter (fun r => r.getD 0 Val.null == Val.int 2)).length = 1 ∧
    (∃ db2, delete_record C7db "tools" 2 = Except.ok db2 ∧
      lookupTable db2 "tools"
        = some { C7table with
            rows := C7table.rows.filter (fun r => !(r.getD 0 Val.null == Val.int 2)) } ∧
      (C7table.rows.filter (fun r => !(r.getD 0 Val.null == Val.int 2))).length + 1
        = C7table.rows.length ∧
      ∀ r ∈ C7table.rows,
        r ∉ C7table.rows.filter (fun r => !(r.getD 0 Val.null == Val.int 2)) →
          r.getD 0 Val.null = Val.int 2) :=
  ⟨by decide, C7_delete_removes_matching_row C7db "tools" 2 C7table 0 rfl rfl (by decide)⟩

theorem C8_witness :
    ("sqlite_master" ∉ ["builds", "tools", "cheats", "downloaders", "preserved"]) ∧
    add_record [] "sqlite_master" [] = Except.ok (([] : DB), true) :=
  ⟨by decide, C8_unknown_table_add_record_true [] "sqlite_master" [] (by decide)⟩

def C10db : DB :=
  [("builds", { cols := ["id", "name"], rows := [[Val.int 1, Val.str "b"]] })]

theorem C10_witness :
    ("db6_settings" ∉ ["builds", "tools", "cheats", "downloaders", "preserved"]) ∧
    ensure_table_columns C10db "db6_settings" = C10db :=
  ⟨by decide, C10_unknown_table_keeps_db C10db "db6_settings" (by decide)⟩

end Db6
